import Mathlib

/-!
Verification development for the eigen-explorer-backend block-range
synchronization engine and time-series metric aggregator.

The definitions below are shallow embeddings of the TypeScript source:

* `loopThroughBlocks`, `fetchLastSyncBlock`, `baseBlock`,
  `bulkUpdateDbTransactions`, `saveLastSyncBlock`
  from `packages/seeder/src/utils/seeder.ts`;
* `seedPods` from the pods seeder, `seedLogsOperatorShares` from the
  operator-shares log seeder;
* `calculateTvlChanges`, `getInitialTvlCumulative`,
  `calculateTvlForHistoricalRecord`, `getOffsetInMs`, `resetTime`,
  `doGetHistoricalTvlBeacon` and the series combination step of
  `doGetHistoricalTvlTotal` from the metrics aggregator.

JavaScript `bigint` block numbers and millisecond timestamps are modelled
as `Nat`; JavaScript floating-point TVL values are modelled as `ℚ`
(the concrete values appearing in the spec examples are exact in both).
JavaScript truthiness tests on numbers are modelled as `≠ 0` tests,
and on optional values as `Option` matching.
-/

namespace EigenExplorer

/-! ## Range Scheduler (`loopThroughBlocks`, seeder.ts lines 21-41) -/

/-- `baseBlock` from seeder.ts: the configured genesis block, selected by the
`NETWORK` environment variable (`holesky` vs. anything else / unset). -/
def baseBlock (network : String) : Nat :=
  if network = "holesky" then 1159609 else 17000000

/-- The batch list produced by the `while (nextBlock < lastBlock)` loop of
`loopThroughBlocks`, written with explicit fuel (the JS loop advances by at
least one block per iteration whenever `batchSize ≥ 1`, so
`lastBlock - currentBlock` iterations always suffice). -/
def batchIntervalsFuel (batchSize : Nat) : Nat → Nat → Nat → List (Nat × Nat)
  | 0, _, _ => []
  | fuel + 1, currentBlock, lastBlock =>
    if currentBlock < lastBlock then
      (currentBlock, min (currentBlock + batchSize) lastBlock) ::
        batchIntervalsFuel batchSize fuel
          (min (currentBlock + batchSize) lastBlock) lastBlock
    else []

/-- `loopThroughBlocks(firstBlock, lastBlock, cb, defaultBatchSize)`:
returns the list of `(fromBlock, toBlock)` pairs the callback is invoked
with, in invocation order, together with the function's return value
(`lastBlock`).  `defaultBatchSize ? defaultBatchSize : 4999n` is JS
truthiness: an absent or zero batch size falls back to `4999`. -/
def loopThroughBlocks (firstBlock lastBlock : Nat)
    (defaultBatchSize : Option Nat) : List (Nat × Nat) × Nat :=
  let batchSize :=
    match defaultBatchSize with
    | some b => if b = 0 then 4999 else b
    | none => 4999
  (batchIntervalsFuel batchSize (lastBlock - firstBlock) firstBlock lastBlock,
    lastBlock)

/-- Closed intervals `[a.1, a.2]` and `[b.1, b.2]` are pairwise disjoint. -/
def closedIntervalsDisjoint (l : List (Nat × Nat)) : Prop :=
  l.Pairwise (fun a b => a.2 < b.1 ∨ b.2 < a.1)

instance : DecidablePred closedIntervalsDisjoint := by
  intro l
  unfold closedIntervalsDisjoint
  infer_instance

/-- The effective batch size used by `loopThroughBlocks`
(`defaultBatchSize ? defaultBatchSize : 4999n`). -/
def effectiveBatchSize (defaultBatchSize : Option Nat) : Nat :=
  match defaultBatchSize with
  | some b => if b = 0 then 4999 else b
  | none => 4999

/-! ## Sync Cursor Store (`fetchLastSyncBlock`, seeder.ts lines 96-106) -/

/-- `fetchLastSyncBlock(key)`: reads the settings row for `key` and returns
`BigInt(value)` when the stored value is truthy
(`lastSyncedBlockData?.value ? ... : baseBlock`), else the configured
`baseBlock`.  The settings key-value surface is modelled as a partial map
from keys to stored numeric values; JS truthiness of a stored number is
`≠ 0`. -/
def fetchLastSyncBlock (network : String) (settings : String → Option Nat)
    (key : String) : Nat :=
  match settings key with
  | some v => if v = 0 then baseBlock network else v
  | none => baseBlock network

/-! ## Point-in-time change metrics (`calculateTvlChanges`) -/

structure ChangeEntry where
  value : ℚ
  percent : ℚ
  deriving DecidableEq

structure TvlChanges where
  tvl : ℚ
  change24h : ChangeEntry
  change7d : ChangeEntry
  deriving DecidableEq

/-- `calculateTvlChanges(currentTvl, tvl24hOffset, tvl7dOffset)` from the
metrics aggregator (part_000 lines 1650-1667). -/
def calculateTvlChanges (currentTvl tvl24hOffset tvl7dOffset : ℚ) : TvlChanges :=
  { tvl := currentTvl
    change24h :=
      { value := currentTvl - tvl24hOffset
        percent :=
          if tvl24hOffset = 0 then 0
          else (currentTvl - tvl24hOffset) / tvl24hOffset }
    change7d :=
      { value := currentTvl - tvl7dOffset
        percent :=
          if tvl7dOffset = 0 then 0
          else (currentTvl - tvl7dOffset) / tvl7dOffset } }

/-! ## Metric Aggregator -/

/-- One `MetricHourly` snapshot row (`metricEigenPodsHourly`,
`metricStrategyHourly`, ...): a millisecond timestamp, the absolute value
fields `tvl`/`tvlEth` and the delta fields `changeTvl`/`changeTvlEth`, plus
the strategy address used for price lookups on the non-ETH-denominated
path. -/
structure MetricHourlyRow where
  timestamp : Nat
  tvl : ℚ
  tvlEth : ℚ
  changeTvl : ℚ
  changeTvlEth : ℚ
  strategyAddress : String
  deriving DecidableEq

def beaconAddress : String := "0xbeac0eeeeeeeeeeeeeeeeeeeeeeeeeeeeeebeac0"

/-- `resetTime(date)`: sets a timestamp to the beginning of its UTC hour
(`setUTCMinutes(0, 0, 0)`). -/
def resetTime (t : Nat) : Nat := t / 3600000 * 3600000

/-- `getOffsetInMs(frequency)` (part_000 lines 1618-1629). -/
def getOffsetInMs (frequency : String) : Nat :=
  match frequency with
  | "1h" => 3600000
  | "1d" => 86400000
  | "7d" => 604800000
  | _ => 3600000

/-- `ethPrices?.get(addr) || 0`. -/
def priceOf (ethPrices : Option (String → Option ℚ)) (addr : String) : ℚ :=
  match ethPrices with
  | some prices => ((prices addr).getD 0 : ℚ)
  | none => 0

/-- The `findFirst({where: {timestamp: {lt: startTimestamp}}, orderBy:
{timestamp: 'desc'}})` backfill query of `getInitialTvlCumulative`: the
latest row of the table strictly before `startTimestamp`.  The table
`modelRows` is modelled as a list sorted by ascending timestamp (the order
the store maintains and every range query requests). -/
def latestRowBefore (modelRows : List MetricHourlyRow) (startTimestamp : Nat) :
    Option MetricHourlyRow :=
  (modelRows.filter fun r => decide (r.timestamp < startTimestamp)).getLast?

/-- `getInitialTvlCumulative` (part_000 lines 1679-1721): seeds the running
cumulative value from the first loaded row when its timestamp equals
`startTimestamp` exactly, otherwise from the latest row strictly before the
window (zero when none exists). -/
def getInitialTvlCumulative (startTimestamp : Nat)
    (hourlyData : List MetricHourlyRow) (isEthDenominated : Bool)
    (modelRows : List MetricHourlyRow)
    (ethPrices : Option (String → Option ℚ)) : Except String ℚ :=
  if !isEthDenominated && ethPrices.isNone then
    Except.error "ETH prices are required for non-beacon calculations"
  else
    let fromPrior : Except String ℚ :=
      match latestRowBefore modelRows startTimestamp with
      | none => Except.ok 0
      | some r =>
        if isEthDenominated then Except.ok r.tvlEth
        else Except.ok (r.tvl * priceOf ethPrices beaconAddress)
    match hourlyData.head? with
    | some first =>
      if first.timestamp = startTimestamp then
        if isEthDenominated then Except.ok first.tvlEth
        else Except.ok (first.tvl * priceOf ethPrices first.strategyAddress)
      else fromPrior
    | none => fromPrior

/-- `calculateTvlForHistoricalRecord` (part_000 lines 1733-1775): cumulative
variant takes the absolute value of the last row of the bucket, carrying the
previous value forward over an empty bucket; discrete variant sums the delta
fields (zero if none). -/
def calculateTvlForHistoricalRecord (intervalData : List MetricHourlyRow)
    (variant : String) (previousTvl : ℚ) (isEthDenominated : Bool)
    (ethPrices : Option (String → Option ℚ)) : Except String ℚ :=
  if !isEthDenominated && ethPrices.isNone then
    Except.error "ETH prices are required for non-beacon calculations"
  else if variant = "cumulative" then
    match intervalData.getLast? with
    | some lastRecord =>
      if isEthDenominated then Except.ok lastRecord.tvlEth
      else Except.ok (lastRecord.tvl * priceOf ethPrices lastRecord.strategyAddress)
    | none => Except.ok previousTvl
  else
    Except.ok (intervalData.foldl
      (fun sum record =>
        if isEthDenominated then sum + record.changeTvlEth
        else sum + record.changeTvl * priceOf ethPrices record.strategyAddress)
      0)

/-- The `while (currentTimestamp <= endTimestamp)` bucket walk shared by the
historical TVL routes, written with explicit fuel (the loop advances by
`offset ≥ 1` milliseconds per iteration, so
`(endTimestamp - start) / offset + 1` iterations always suffice).  Each
bucket filters the loaded rows to `[currentTimestamp, currentTimestamp +
offset)`, updates the running value via `calculateTvlForHistoricalRecord`
and emits one `(timestamp, value)` point. -/
def tvlWalkFuel (variant : String) (isEthDenominated : Bool)
    (ethPrices : Option (String → Option ℚ))
    (hourlyData : List MetricHourlyRow) (offset endTimestamp : Nat) :
    Nat → Nat → ℚ → Except String (List (Nat × ℚ))
  | 0, _, _ => Except.ok []
  | fuel + 1, currentTimestamp, tvlEth =>
    if currentTimestamp ≤ endTimestamp then
      (calculateTvlForHistoricalRecord
          (hourlyData.filter fun data =>
            decide (currentTimestamp ≤ data.timestamp) &&
              decide (data.timestamp < currentTimestamp + offset))
          variant tvlEth isEthDenominated ethPrices).bind fun v =>
        (tvlWalkFuel variant isEthDenominated ethPrices hourlyData offset
            endTimestamp fuel (currentTimestamp + offset) v).map
          fun rest => (currentTimestamp, v) :: rest
    else Except.ok []

/-- `doGetHistoricalTvlBeacon(startAt, endAt, frequency, variant)` (part_000
lines 1066-1129): the `metricEigenPodsHourly` table is modelled as the list
`tableRows` sorted by ascending timestamp; the `findMany` range query is the
in-window filter; points carry their millisecond bucket timestamp (the
source serializes it with `toISOString()`). -/
def doGetHistoricalTvlBeacon (tableRows : List MetricHourlyRow)
    (startAt endAt : Nat) (frequency variant : String) :
    Except String (List (Nat × ℚ)) :=
  (if variant = "cumulative" then
      getInitialTvlCumulative (resetTime startAt)
        (tableRows.filter fun r =>
          decide (resetTime startAt ≤ r.timestamp) &&
            decide (r.timestamp ≤ resetTime endAt))
        true tableRows none
    else Except.ok 0).bind fun tvlEth =>
    tvlWalkFuel variant true none
      (tableRows.filter fun r =>
        decide (resetTime startAt ≤ r.timestamp) &&
          decide (r.timestamp ≤ resetTime endAt))
      (getOffsetInMs frequency) (resetTime endAt)
      ((resetTime endAt - resetTime startAt) / getOffsetInMs frequency + 1)
      (resetTime startAt) tvlEth

/-- The pre-window seed value of a cumulative walk over `tableRows` on the
ETH-denominated path: the `tvlEth` of the latest row strictly before the
window, or zero when no prior row exists. -/
def preWindowSeed (tableRows : List MetricHourlyRow) (startTimestamp : Nat) : ℚ :=
  match latestRowBefore tableRows startTimestamp with
  | some r => r.tvlEth
  | none => 0

/-- One element of a historical TVL response (`{timestamp, tvlEth}` with the
ISO-8601 timestamp string). -/
structure HistoricalTvlRecord where
  timestamp : String
  tvlEth : ℚ
  deriving DecidableEq

/-- The result-combination step of `doGetHistoricalTvlTotal` (part_000 lines
1042-1055): `beaconTvl.map((beaconEntry, index) => ...)`, throwing when
`restakingTvl[index]` is absent or carries a different timestamp, otherwise
emitting the pointwise sum; `index` is the position within `beaconTvl`. -/
def combineHistoricalTvlFrom (index : Nat) :
    List HistoricalTvlRecord → List HistoricalTvlRecord →
      Except String (List HistoricalTvlRecord)
  | [], _ => Except.ok []
  | _ :: _, [] =>
    Except.error ("Mismatch in historical data at index " ++ toString index)
  | b :: bs, r :: rs =>
    if b.timestamp ≠ r.timestamp then
      Except.error ("Mismatch in historical data at index " ++ toString index)
    else
      (combineHistoricalTvlFrom (index + 1) bs rs).map
        fun rest =>
          { timestamp := b.timestamp, tvlEth := b.tvlEth + r.tvlEth } :: rest

/-- The combination of the two historical series inside
`doGetHistoricalTvlTotal`, starting at index `0`. -/
def doGetHistoricalTvlTotalCombine
    (beaconTvl restakingTvl : List HistoricalTvlRecord) :
    Except String (List HistoricalTvlRecord) :=
  combineHistoricalTvlFrom 0 beaconTvl restakingTvl

/-! ## Bulk Writer and sync streams (`seedPods`, `seedLogsOperatorShares`) -/

/-- A `Pod` record as written by `seedPods`. -/
structure Pod where
  address : String
  owner : String
  blockNumber : Nat
  createdAtBlock : Nat
  updatedAtBlock : Nat
  createdAt : Nat
  updatedAt : Nat
  deriving DecidableEq

/-- An `EventLogs_OperatorSharesIncreased` / `..Decreased` record as written
by `seedLogsOperatorShares`. -/
structure EventRow where
  address : String
  transactionHash : String
  transactionIndex : Nat
  blockNumber : Nat
  blockHash : String
  blockTime : Nat
  operator : String
  staker : String
  strategy : String
  shares : String
  deriving DecidableEq

/-- One pending Prisma write operation queued in a seeder's `dbTransactions`
array. -/
inductive DbOp where
  | validatorRestakeDeleteAll
  | podDeleteAll
  | podCreateMany (rows : List Pod)
  | podUpsert (row : Pod)
  | eventLogsIncCreateMany (rows : List EventRow)
  | eventLogsDecCreateMany (rows : List EventRow)
  | settingsUpsert (key : String) (value : Nat)
  deriving DecidableEq

/-- The persistent store: the settings key-value surface plus the destination
tables touched by the two modelled streams. -/
structure Db where
  settings : String → Option Nat
  pods : List Pod
  validatorRestakes : List String
  eventLogsOperatorSharesIncreased : List EventRow
  eventLogsOperatorSharesDecreased : List EventRow

/-- `settings.upsert({where: {key}, update: {value}, create: {key, value}})`. -/
def settingsUpsertMap (settings : String → Option Nat) (key : String)
    (value : Nat) : String → Option Nat :=
  fun k => if k = key then some value else settings k

/-- `createMany({..., skipDuplicates: true})` row step for pods, whose natural
key is `address`. -/
def podInsertSkipDup (pods : List Pod) (p : Pod) : List Pod :=
  if pods.any fun e => e.address == p.address then pods else pods ++ [p]

/-- `pod.upsert({where: {address}, update: {...}, create: {...}})`: on a key
hit only `owner`, `blockNumber`, `updatedAtBlock`, `updatedAt` are updated. -/
def applyPodUpsert (pods : List Pod) (p : Pod) : List Pod :=
  if pods.any fun e => e.address == p.address then
    pods.map fun e =>
      if e.address == p.address then
        { e with
          owner := p.owner
          blockNumber := p.blockNumber
          updatedAtBlock := p.updatedAtBlock
          updatedAt := p.updatedAt }
      else e
  else pods ++ [p]

/-- `createMany({..., skipDuplicates: true})` row step for event-log tables,
whose natural key is `(transactionHash, transactionIndex)`. -/
def eventRowInsertSkipDup (tbl : List EventRow) (r : EventRow) : List EventRow :=
  if tbl.any fun e =>
      e.transactionHash == r.transactionHash &&
        e.transactionIndex == r.transactionIndex then
    tbl
  else tbl ++ [r]

/-- Effect of one queued write operation on the store. -/
def applyDbOp (db : Db) : DbOp → Db
  | DbOp.validatorRestakeDeleteAll => { db with validatorRestakes := [] }
  | DbOp.podDeleteAll => { db with pods := [] }
  | DbOp.podCreateMany rows =>
    { db with pods := rows.foldl podInsertSkipDup db.pods }
  | DbOp.podUpsert row => { db with pods := applyPodUpsert db.pods row }
  | DbOp.eventLogsIncCreateMany rows =>
    { db with eventLogsOperatorSharesIncreased :=
        rows.foldl eventRowInsertSkipDup db.eventLogsOperatorSharesIncreased }
  | DbOp.eventLogsDecCreateMany rows =>
    { db with eventLogsOperatorSharesDecreased :=
        rows.foldl eventRowInsertSkipDup db.eventLogsOperatorSharesDecreased }
  | DbOp.settingsUpsert key value =>
    { db with settings := settingsUpsertMap db.settings key value }

/-- Modelled from the spec: `chunkArray` lives in
`packages/seeder/src/utils/array`, which is not among the provided sources;
the spec's Bulk Writer applies the queued operations "as one or more atomic
chunks of bounded size (default 1000 operations per transaction)", i.e.
standard order-preserving chunking.  Written with fuel (`l.length` steps
always suffice for a positive chunk size). -/
def chunkListFuel {α : Type} : Nat → List α → Nat → List (List α)
  | 0, _, _ => []
  | _, [], _ => []
  | fuel + 1, l, size => l.take size :: chunkListFuel fuel (l.drop size) size

/-- Modelled from the spec: see `chunkListFuel`. -/
def chunkArray {α : Type} (l : List α) (size : Nat) : List (List α) :=
  chunkListFuel l.length l size

/-- The chunk loop of `bulkUpdateDbTransactions`: each chunk is one
`prismaClient.$transaction(chunk)`, atomic — it either commits all its
operations or, when it fails (the failure schedule `fails` names the failing
chunk index), throws with no effect, leaving the store at the state committed
by the preceding chunks (carried in the `error` value). -/
def runChunks (fails : Nat → Bool) :
    List (List DbOp) → Nat → Db → Except Db Db
  | [], _, db => Except.ok db
  | chunk :: rest, i, db =>
    if fails i then Except.error db
    else runChunks fails rest (i + 1) (chunk.foldl applyDbOp db)

/-- `bulkUpdateDbTransactions(dbTransactions)` (seeder.ts lines 76-94):
chunks of 1000 operations, each applied as one transaction; a throwing
transaction propagates to the caller. -/
def bulkUpdateDbTransactions (fails : Nat → Bool) (dbTransactions : List DbOp)
    (db : Db) : Except Db Db :=
  runChunks fails (chunkArray dbTransactions 1000) 0 db

/-- `saveLastSyncBlock(key, blockNumber)` (seeder.ts lines 120-128). -/
def saveLastSyncBlock (db : Db) (key : String) (blockNumber : Nat) : Db :=
  { db with settings := settingsUpsertMap db.settings key blockNumber }

def podsBlockSyncKey : String := "lastSyncedBlock_pods"

/-- A raw `PodDeployed` log. -/
structure PodRawLog where
  argEigenPod : String
  argPodOwner : String
  blockNumber : Nat
  deriving DecidableEq

/-- The per-log record construction of `seedPods`: addresses lowercased, the
block timestamp resolved via `getBlock` (seconds, multiplied by 1000). -/
def decodePodLog (blockTimestamps : Nat → Nat) (log : PodRawLog) : Pod :=
  { address := log.argEigenPod.toLower
    owner := log.argPodOwner.toLower
    blockNumber := log.blockNumber
    createdAtBlock := log.blockNumber
    updatedAtBlock := log.blockNumber
    createdAt := blockTimestamps log.blockNumber * 1000
    updatedAt := blockTimestamps log.blockNumber * 1000 }

/-- `seedPods(toBlock?, fromBlock?)`: collects the pod records decoded from
the `PodDeployed` logs of every batch of the block-range loop (`logs` is
their in-order concatenation — the loop only reads and accumulates), builds
the write list (bootstrap mode when `firstBlock == baseBlock`, upserts
otherwise), applies it through the Bulk Writer and, only after that call
returns successfully, stores the cursor; a write failure propagates
(`Except.error` carries the store as committed so far).  JS truthiness of
the optional `bigint` arguments is modelled as on `fetchLastSyncBlock`. -/
def seedPods (network : String) (fails : Nat → Bool)
    (blockTimestamps : Nat → Nat) (currentHead : Nat)
    (logs : List PodRawLog) (toBlock fromBlock : Option Nat) (db : Db) :
    Except Db Db :=
  let firstBlock :=
    match fromBlock with
    | some f =>
      if f = 0 then fetchLastSyncBlock network db.settings podsBlockSyncKey else f
    | none => fetchLastSyncBlock network db.settings podsBlockSyncKey
  let lastBlock :=
    match toBlock with
    | some t => if t = 0 then currentHead else t
    | none => currentHead
  let podList := logs.map (decodePodLog blockTimestamps)
  let dbTransactions :=
    if firstBlock = baseBlock network then
      [DbOp.validatorRestakeDeleteAll, DbOp.podDeleteAll,
        DbOp.podCreateMany podList]
    else podList.map DbOp.podUpsert
  (bulkUpdateDbTransactions fails dbTransactions db).map fun d =>
    saveLastSyncBlock d podsBlockSyncKey lastBlock

def opSharesBlockSyncKey : String := "lastSyncedBlock_logs_operatorShares"

/-- A raw `OperatorSharesIncreased` / `OperatorSharesDecreased` log as
returned by `getLogs` with both event filters. -/
structure OperatorSharesRawLog where
  address : String
  transactionHash : String
  transactionIndex : Nat
  blockNumber : Nat
  blockHash : String
  argOperator : String
  argStaker : String
  argStrategy : String
  argShares : Nat
  deriving DecidableEq

/-- The per-log record construction of `seedLogsOperatorShares`:
`blockData.get(blockNumber) || new Date(0)` for the block time, `String(...)`
on the event arguments (the `uint256` share amount becomes its decimal
string). -/
def decodeOperatorSharesLog (blockData : Nat → Option Nat)
    (log : OperatorSharesRawLog) : EventRow :=
  { address := log.address
    transactionHash := log.transactionHash
    transactionIndex := log.transactionIndex
    blockNumber := log.blockNumber
    blockHash := log.blockHash
    blockTime := (blockData log.blockNumber).getD 0
    operator := log.argOperator
    staker := log.argStaker
    strategy := log.argStrategy
    shares := toString log.argShares }

/-- One iteration of the block-range loop inside `seedLogsOperatorShares`:
the logs `getLogs` returns for the batch, the batch's `toBlock`, whether the
chain read throws (`rpcFails`), and the failure schedule of the batch's
`bulkUpdateDbTransactions` call. -/
structure OperatorSharesBatch where
  toBlock : Nat
  rpcFails : Bool
  logs : List OperatorSharesRawLog
  chunkFails : Nat → Bool

/-- The accumulator state of `seedLogsOperatorShares`: the two record arrays
and the `dbTransactions` array — all declared OUTSIDE the loop and never
cleared — plus the store. -/
structure OperatorSharesAcc where
  logsIncreased : List EventRow
  logsDecreased : List EventRow
  dbTransactions : List DbOp
  db : Db

/-- The `try { ... } catch (error) {}` body of one batch of
`seedLogsOperatorShares` (part_002 lines 40-115): a throwing chain read
leaves everything untouched; otherwise EVERY log is pushed onto BOTH record
arrays, three more operations (two `createMany` over the full accumulated
arrays and the cursor upsert for THIS batch's `toBlock`) are appended to the
accumulated `dbTransactions`, and the whole list is applied through the Bulk
Writer.  A write failure is swallowed by the empty catch: the run continues
with the store as committed so far and the arrays keep their pushes. -/
def processOperatorSharesBatch (blockData : Nat → Option Nat)
    (acc : OperatorSharesAcc) (batch : OperatorSharesBatch) :
    OperatorSharesAcc :=
  if batch.rpcFails then acc
  else
    let rows := batch.logs.map (decodeOperatorSharesLog blockData)
    let logsIncreased := acc.logsIncreased ++ rows
    let logsDecreased := acc.logsDecreased ++ rows
    let dbTransactions := acc.dbTransactions ++
      [DbOp.eventLogsIncCreateMany logsIncreased,
        DbOp.eventLogsDecCreateMany logsDecreased,
        DbOp.settingsUpsert opSharesBlockSyncKey batch.toBlock]
    match bulkUpdateDbTransactions batch.chunkFails dbTransactions acc.db with
    | Except.ok d =>
      { logsIncreased := logsIncreased, logsDecreased := logsDecreased,
        dbTransactions := dbTransactions, db := d }
    | Except.error d =>
      { logsIncreased := logsIncreased, logsDecreased := logsDecreased,
        dbTransactions := dbTransactions, db := d }

/-- `seedLogsOperatorShares(toBlock?, fromBlock?)`: folds the batches of the
block-range loop over the shared accumulator.  The function always returns
normally — every batch failure is swallowed by the empty catch. -/
def seedLogsOperatorShares (blockData : Nat → Option Nat)
    (batches : List OperatorSharesBatch) (db : Db) : OperatorSharesAcc :=
  batches.foldl (processOperatorSharesBatch blockData)
    { logsIncreased := [], logsDecreased := [], dbTransactions := [], db := db }

/-- Whether a queued operation touches the settings surface. -/
def isSettingsOp : DbOp → Bool
  | DbOp.settingsUpsert _ _ => true
  | _ => false

deriving instance DecidableEq for Except

/-- An empty store. -/
def emptyDb : Db :=
  { settings := fun _ => none
    pods := []
    validatorRestakes := []
    eventLogsOperatorSharesIncreased := []
    eventLogsOperatorSharesDecreased := [] }

/-- A concrete snapshot row (timestamp 1000 ms, `tvlEth` 3) used by concrete
instantiations. -/
def mRow1 : MetricHourlyRow :=
  { timestamp := 1000
    tvl := 2
    tvlEth := 3
    changeTvl := 0
    changeTvlEth := 0
    strategyAddress := "0xstrat" }

/-- A concrete `PodDeployed` log used by concrete instantiations. -/
def podLog1 : PodRawLog :=
  { argEigenPod := "0xPodA", argPodOwner := "0xOwnerB", blockNumber := 50 }

/-- A concrete `OperatorSharesIncreased` log used by concrete
instantiations. -/
def opShareLog1 : OperatorSharesRawLog :=
  { address := "0xdm"
    transactionHash := "0xtx"
    transactionIndex := 0
    blockNumber := 100
    blockHash := "0xbh"
    argOperator := "0xop"
    argStaker := "0xstaker"
    argStrategy := "0xstrat"
    argShares := 5 }

/-- A store whose operator-shares sync cursor is block 100. -/
def cursorDb100 : Db :=
  { emptyDb with
    settings := fun k => if k = opSharesBlockSyncKey then some 100 else none }

theorem effectiveBatchSize_pos (dbs : Option Nat) : 1 ≤ effectiveBatchSize dbs := by
  cases dbs with
  | none => simp [effectiveBatchSize]
  | some b =>
    by_cases hb : b = 0
    · simp [effectiveBatchSize, hb]
    · simp only [effectiveBatchSize, if_neg hb]
      omega

theorem loopThroughBlocks_eq (firstBlock lastBlock : Nat) (dbs : Option Nat) :
    loopThroughBlocks firstBlock lastBlock dbs =
      (batchIntervalsFuel (effectiveBatchSize dbs) (lastBlock - firstBlock)
        firstBlock lastBlock, lastBlock) := by
  cases dbs with
  | none => rfl
  | some b => by_cases hb : b = 0 <;> simp [loopThroughBlocks, effectiveBatchSize, hb]

theorem batchIntervalsFuel_head (bs fuel c l : Nat) (hfuel : l - c ≤ fuel)
    (hcl : c < l) :
    ∃ rest, batchIntervalsFuel bs fuel c l = (c, min (c + bs) l) :: rest := by
  cases fuel with
  | zero => omega
  | succ f =>
    exact ⟨batchIntervalsFuel bs f (min (c + bs) l) l,
      by rw [batchIntervalsFuel, if_pos hcl]⟩

theorem batchIntervalsFuel_ne_nil (bs fuel c l : Nat) (hfuel : l - c ≤ fuel)
    (hcl : c < l) : batchIntervalsFuel bs fuel c l ≠ [] := by
  obtain ⟨rest, h⟩ := batchIntervalsFuel_head bs fuel c l hfuel hcl
  simp [h]

theorem batchIntervalsFuel_last (bs : Nat) (hbs : 1 ≤ bs) :
    ∀ (fuel c l : Nat), l - c ≤ fuel → c < l →
      ∀ q, (batchIntervalsFuel bs fuel c l).getLast? = some q → q.2 = l := by
  intro fuel
  induction fuel with
  | zero => intro c l hfuel hcl; omega
  | succ f ih =>
    intro c l hfuel hcl q hq
    rw [batchIntervalsFuel, if_pos hcl] at hq
    by_cases hnext : min (c + bs) l < l
    · have htail := batchIntervalsFuel_ne_nil bs f (min (c + bs) l) l (by omega) hnext
      obtain ⟨hd, tl, htl⟩ := List.exists_cons_of_ne_nil htail
      rw [htl, List.getLast?_cons_cons, ← htl] at hq
      exact ih (min (c + bs) l) l (by omega) hnext q hq
    · have hmin : min (c + bs) l = l := by omega
      rw [hmin] at hq
      have htail : batchIntervalsFuel bs f l l = [] := by
        cases f with
        | zero => rfl
        | succ g => simp [batchIntervalsFuel]
      rw [htail] at hq
      simp at hq
      rw [← hq]

theorem batchIntervalsFuel_mem (bs : Nat) (hbs : 1 ≤ bs) :
    ∀ (fuel c l : Nat), l - c ≤ fuel →
      ∀ p ∈ batchIntervalsFuel bs fuel c l,
        c ≤ p.1 ∧ p.1 < p.2 ∧ p.2 - p.1 ≤ bs ∧ p.2 ≤ l := by
  intro fuel
  induction fuel with
  | zero => intro c l _ p hp; simp [batchIntervalsFuel] at hp
  | succ f ih =>
    intro c l hfuel p hp
    rw [batchIntervalsFuel] at hp
    by_cases hcl : c < l
    · rw [if_pos hcl] at hp
      rcases List.mem_cons.mp hp with h | h
      · subst h; simp only; omega
      · have := ih (min (c + bs) l) l (by omega) p h
        omega
    · rw [if_neg hcl] at hp; simp at hp

theorem batchIntervalsFuel_chain (bs : Nat) (hbs : 1 ≤ bs) :
    ∀ (fuel c l : Nat), l - c ≤ fuel →
      List.Chain' (fun a b : Nat × Nat => b.1 = a.2)
        (batchIntervalsFuel bs fuel c l) := by
  intro fuel
  induction fuel with
  | zero => intro c l _; simp [batchIntervalsFuel]
  | succ f ih =>
    intro c l hfuel
    rw [batchIntervalsFuel]
    by_cases hcl : c < l
    · rw [if_pos hcl]
      refine List.chain'_cons'.mpr ⟨?_, ih (min (c + bs) l) l (by omega)⟩
      intro y hy
      by_cases hnext : min (c + bs) l < l
      · obtain ⟨rest, hrest⟩ :=
          batchIntervalsFuel_head bs f (min (c + bs) l) l (by omega) hnext
        rw [hrest] at hy
        simp at hy
        rw [← hy]
      · have htail : batchIntervalsFuel bs f (min (c + bs) l) l = [] := by
          cases f with
          | zero => rfl
          | succ g => rw [batchIntervalsFuel, if_neg hnext]
        rw [htail] at hy
        simp at hy
    · rw [if_neg hcl]; simp

theorem batchIntervalsFuel_cover (bs : Nat) (hbs : 1 ≤ bs) :
    ∀ (fuel c l : Nat), l - c ≤ fuel → c < l →
      ∀ x, c ≤ x → x ≤ l →
        ∃ p ∈ batchIntervalsFuel bs fuel c l, p.1 ≤ x ∧ x ≤ p.2 := by
  intro fuel
  induction fuel with
  | zero => intro c l hfuel hcl; omega
  | succ f ih =>
    intro c l hfuel hcl x hcx hxl
    rw [batchIntervalsFuel, if_pos hcl]
    by_cases hx : x ≤ min (c + bs) l
    · exact ⟨(c, min (c + bs) l), List.mem_cons_self _ _, hcx, hx⟩
    · have hnext : min (c + bs) l < l := by omega
      obtain ⟨p, hp, hp1, hp2⟩ :=
        ih (min (c + bs) l) l (by omega) hnext x (by omega) hxl
      exact ⟨p, List.mem_cons_of_mem _ hp, hp1, hp2⟩

theorem batchIntervalsFuel_ascending (bs : Nat) (hbs : 1 ≤ bs) :
    ∀ (fuel c l : Nat), l - c ≤ fuel →
      List.Chain' (fun a b : Nat × Nat => a.1 < b.1)
        (batchIntervalsFuel bs fuel c l) := by
  intro fuel
  induction fuel with
  | zero => intro c l _; simp [batchIntervalsFuel]
  | succ f ih =>
    intro c l hfuel
    rw [batchIntervalsFuel]
    by_cases hcl : c < l
    · rw [if_pos hcl]
      refine List.chain'_cons'.mpr ⟨?_, ih (min (c + bs) l) l (by omega)⟩
      intro y hy
      by_cases hnext : min (c + bs) l < l
      · obtain ⟨rest, hrest⟩ :=
          batchIntervalsFuel_head bs f (min (c + bs) l) l (by omega) hnext
        rw [hrest] at hy
        simp at hy
        rw [← hy]
        simp only
        omega
      · have htail : batchIntervalsFuel bs f (min (c + bs) l) l = [] := by
          cases f with
          | zero => rfl
          | succ g => rw [batchIntervalsFuel, if_neg hnext]
        rw [htail] at hy
        simp at hy
    · rw [if_neg hcl]; simp

/-- C1, counterexample: with `firstBlock = 0`, `lastBlock = 10`, `batchSize = 4`,
the Range Scheduler produces the intervals `(0,4), (4,8), (8,10)`.  Interpreted
as closed intervals these are NOT non-overlapping: block `4` lies in both
`[0,4]` and `[4,8]` (each batch starts at the previous batch's upper bound),
and the closed interval `[0,4]` contains `5 > batchSize` blocks. -/
theorem rangeScheduler_overlap_cex :
    (loopThroughBlocks 0 10 (some 4)).1 = [(0, 4), (4, 8), (8, 10)] ∧
      ¬ closedIntervalsDisjoint (loopThroughBlocks 0 10 (some 4)).1 ∧
      ¬ (∀ p ∈ (loopThroughBlocks 0 10 (some 4)).1, p.2 + 1 - p.1 ≤ 4) := by
  refine ⟨by decide, by decide, ?_⟩
  intro h
  have := h (0, 4) (by decide)
  omega

/-- C1 (amended): for `firstBlock < lastBlock`, `loopThroughBlocks` partitions
`[firstBlock, lastBlock]` into consecutive closed intervals that are visited
in ascending order and cover exactly `[firstBlock, lastBlock]`: the first
interval starts at `firstBlock`, the last one ends at `lastBlock`, each
interval `(f, t)` satisfies `f < t` and `t - f ≤ batchSize` (so it spans at
most `batchSize` blocks beyond its shared left endpoint), and each interval
starts exactly at the previous interval's upper bound — consecutive closed
intervals share that boundary block rather than being disjoint. -/
theorem rangeScheduler_partition (firstBlock lastBlock : Nat) (dbs : Option Nat)
    (h : firstBlock < lastBlock) :
    (∃ rest, (loopThroughBlocks firstBlock lastBlock dbs).1 =
        (firstBlock, min (firstBlock + effectiveBatchSize dbs) lastBlock) :: rest) ∧
      (∀ q, (loopThroughBlocks firstBlock lastBlock dbs).1.getLast? = some q →
        q.2 = lastBlock) ∧
      List.Chain' (fun a b : Nat × Nat => b.1 = a.2)
        (loopThroughBlocks firstBlock lastBlock dbs).1 ∧
      (∀ p ∈ (loopThroughBlocks firstBlock lastBlock dbs).1,
        p.1 < p.2 ∧ p.2 - p.1 ≤ effectiveBatchSize dbs) ∧
      List.Chain' (fun a b : Nat × Nat => a.1 < b.1)
        (loopThroughBlocks firstBlock lastBlock dbs).1 ∧
      (∀ x, firstBlock ≤ x → x ≤ lastBlock →
        ∃ p ∈ (loopThroughBlocks firstBlock lastBlock dbs).1, p.1 ≤ x ∧ x ≤ p.2) ∧
      (loopThroughBlocks firstBlock lastBlock dbs).2 = lastBlock := by
  have hbs := effectiveBatchSize_pos dbs
  rw [loopThroughBlocks_eq]
  refine ⟨batchIntervalsFuel_head _ _ _ _ (le_refl _) h,
    batchIntervalsFuel_last _ hbs _ _ _ (le_refl _) h,
    batchIntervalsFuel_chain _ hbs _ _ _ (le_refl _),
    fun p hp => ?_,
    batchIntervalsFuel_ascending _ hbs _ _ _ (le_refl _),
    fun x hx1 hx2 => batchIntervalsFuel_cover _ hbs _ _ _ (le_refl _) h x hx1 hx2,
    rfl⟩
  have := batchIntervalsFuel_mem _ hbs _ _ _ (le_refl _) p hp
  exact ⟨this.2.1, this.2.2.1⟩

/-- Witness for C1 (amended) at `firstBlock = 0`, `lastBlock = 10`,
`batchSize = 4`. -/
theorem rangeScheduler_partition_witness :
    (∀ p ∈ (loopThroughBlocks 0 10 (some 4)).1,
        p.1 < p.2 ∧ p.2 - p.1 ≤ effectiveBatchSize (some 4)) ∧
      (∀ x, 0 ≤ x → x ≤ 10 →
        ∃ p ∈ (loopThroughBlocks 0 10 (some 4)).1, p.1 ≤ x ∧ x ≤ p.2) ∧
      (loopThroughBlocks 0 10 (some 4)).2 = 10 :=
  ⟨(rangeScheduler_partition 0 10 (some 4) (by decide)).2.2.2.1,
    (rangeScheduler_partition 0 10 (some 4) (by decide)).2.2.2.2.2.1,
    (rangeScheduler_partition 0 10 (some 4) (by decide)).2.2.2.2.2.2⟩

/-- C9: with `firstBlock = 17000000`, default `batchSize = 4999` and
`lastBlock = 17010000`, the Range Scheduler invokes the callback exactly three
times, with `(17000000, 17004999)`, `(17004999, 17009998)`,
`(17009998, 17010000)`, in that order, and returns `17010000`; and whenever
`firstBlock >= lastBlock`, zero callbacks fire. -/
theorem rangeScheduler_example :
    (loopThroughBlocks 17000000 17010000 none).1 =
        [(17000000, 17004999), (17004999, 17009998), (17009998, 17010000)] ∧
      (loopThroughBlocks 17000000 17010000 none).2 = 17010000 ∧
      ∀ firstBlock lastBlock dbs, lastBlock ≤ firstBlock →
        (loopThroughBlocks firstBlock lastBlock dbs).1 = [] := by
  refine ⟨by decide, rfl, fun firstBlock lastBlock dbs hle => ?_⟩
  rw [loopThroughBlocks_eq]
  simp only
  rw [Nat.sub_eq_zero_of_le hle]
  rfl

/-- Witness for C9 at `firstBlock = 5 ≥ lastBlock = 3`. -/
theorem rangeScheduler_example_witness :
    (loopThroughBlocks 17000000 17010000 none).2 = 17010000 ∧
      (loopThroughBlocks 5 3 none).1 = [] :=
  ⟨rangeScheduler_example.2.1, rangeScheduler_example.2.2 5 3 none (by decide)⟩

/-! ## Metric Aggregator lemmas -/

theorem ok_bind {ε α β : Type} (a : α) (f : α → Except ε β) :
    (Except.ok a : Except ε α).bind f = f a := rfl

theorem error_bind {ε α β : Type} (e : ε) (f : α → Except ε β) :
    (Except.error e : Except ε α).bind f = Except.error e := rfl

theorem ok_map {ε α β : Type} (a : α) (f : α → β) :
    (Except.ok a : Except ε α).map f = Except.ok (f a) := rfl

theorem error_map {ε α β : Type} (e : ε) (f : α → β) :
    (Except.error e : Except ε α).map f = Except.error e := rfl

theorem getOffsetInMs_pos (frequency : String) : 1 ≤ getOffsetInMs frequency := by
  unfold getOffsetInMs
  split <;> omega

theorem calculateTvl_eth_ok (intervalData : List MetricHourlyRow)
    (variant : String) (previousTvl : ℚ) :
    ∃ q, calculateTvlForHistoricalRecord intervalData variant previousTvl
      true none = Except.ok q := by
  by_cases hv : variant = "cumulative"
  · rcases h : intervalData.getLast? with _ | r
    · exact ⟨previousTvl, by simp [calculateTvlForHistoricalRecord, hv, h]⟩
    · exact ⟨r.tvlEth, by simp [calculateTvlForHistoricalRecord, hv, h]⟩
  · exact ⟨intervalData.foldl (fun sum record => sum + record.changeTvlEth) 0,
      by simp [calculateTvlForHistoricalRecord, hv]⟩

theorem getInitialTvlCumulative_eth_ok (startTimestamp : Nat)
    (hourlyData modelRows : List MetricHourlyRow) :
    ∃ q, getInitialTvlCumulative startTimestamp hourlyData true modelRows
      none = Except.ok q := by
  rcases hh : hourlyData.head? with _ | first
  · rcases hp : latestRowBefore modelRows startTimestamp with _ | r
    · exact ⟨0, by simp [getInitialTvlCumulative, hh, hp]⟩
    · exact ⟨r.tvlEth, by simp [getInitialTvlCumulative, hh, hp]⟩
  · by_cases hts : first.timestamp = startTimestamp
    · exact ⟨first.tvlEth, by simp [getInitialTvlCumulative, hh, hts]⟩
    · rcases hp : latestRowBefore modelRows startTimestamp with _ | r
      · exact ⟨0, by simp [getInitialTvlCumulative, hh, hts, hp]⟩
      · exact ⟨r.tvlEth, by simp [getInitialTvlCumulative, hh, hts, hp]⟩

/-- Seeding an ETH-denominated cumulative walk over an empty in-window row
set yields the pre-window seed. -/
theorem getInitialTvlCumulative_empty (startTimestamp : Nat)
    (modelRows : List MetricHourlyRow) :
    getInitialTvlCumulative startTimestamp [] true modelRows none =
      Except.ok (preWindowSeed modelRows startTimestamp) := by
  rcases hp : latestRowBefore modelRows startTimestamp with _ | r <;>
    simp [getInitialTvlCumulative, preWindowSeed, hp]

theorem tvlWalkFuel_stop (variant : String) (isEth : Bool)
    (prices : Option (String → Option ℚ)) (rows : List MetricHourlyRow)
    (offset endT : Nat) :
    ∀ (fuel current : Nat) (prev : ℚ), endT < current →
      tvlWalkFuel variant isEth prices rows offset endT fuel current prev =
        Except.ok [] := by
  intro fuel current prev h
  cases fuel with
  | zero => rfl
  | succ f => rw [tvlWalkFuel, if_neg (by omega)]

/-- The cumulative walk over an empty row set carries the seed forward
unchanged into every emitted point. -/
theorem tvlWalkFuel_const (offset endT : Nat) :
    ∀ (fuel current : Nat) (prev : ℚ),
      ∃ pts, tvlWalkFuel "cumulative" true none [] offset endT fuel current
          prev = Except.ok pts ∧ ∀ p ∈ pts, p.2 = prev := by
  intro fuel
  induction fuel with
  | zero => intro current prev; exact ⟨[], rfl, by simp⟩
  | succ f ih =>
    intro current prev
    by_cases h : current ≤ endT
    · obtain ⟨pts, hw, hp⟩ := ih (current + offset) prev
      refine ⟨(current, prev) :: pts, ?_, ?_⟩
      · rw [tvlWalkFuel, if_pos h]
        simp only [List.filter_nil,
          show calculateTvlForHistoricalRecord [] "cumulative" prev true
            none = Except.ok prev from rfl,
          ok_bind, hw, ok_map]
      · intro p hp2
        rcases List.mem_cons.mp hp2 with h0 | h0
        · rw [h0]
        · exact hp p h0
    · exact ⟨[], by rw [tvlWalkFuel, if_neg h], by simp⟩

/-- Bucket-count lemma for the walk: with positive offset and sufficient
fuel, the walk succeeds on the ETH-denominated path and emits
`(endT - current) / offset + 1` points (one per bucket start `≤ endT`). -/
theorem tvlWalkFuel_length (variant : String) (rows : List MetricHourlyRow)
    (offset endT : Nat) (hoff : 1 ≤ offset) :
    ∀ (fuel current : Nat) (prev : ℚ),
      (endT - current) / offset + 1 ≤ fuel → current ≤ endT →
      ∃ pts, tvlWalkFuel variant true none rows offset endT fuel current
          prev = Except.ok pts ∧
        pts.length = (endT - current) / offset + 1 := by
  intro fuel
  induction fuel with
  | zero =>
    intro current prev hfuel _
    exact absurd hfuel (Nat.not_succ_le_zero _)
  | succ f ih =>
    intro current prev hfuel hle
    obtain ⟨v, hv⟩ := calculateTvl_eth_ok
      (rows.filter fun data =>
        decide (current ≤ data.timestamp) &&
          decide (data.timestamp < current + offset)) variant prev
    by_cases hnext : current + offset ≤ endT
    · have hdiv : (endT - current) / offset =
          (endT - (current + offset)) / offset + 1 := by
        have h1 : endT - current = (endT - (current + offset)) + offset := by
          omega
        rw [h1, Nat.add_div_right _ (by omega)]
      obtain ⟨pts, hw, hlen⟩ := ih (current + offset) v (by omega) hnext
      refine ⟨(current, v) :: pts, ?_, by simp [hlen, hdiv]⟩
      rw [tvlWalkFuel, if_pos hle]
      simp only [hv, ok_bind, hw, ok_map]
    · have hdiv : (endT - current) / offset = 0 :=
        Nat.div_eq_of_lt (by omega)
      refine ⟨[(current, v)], ?_, by simp [hdiv]⟩
      rw [tvlWalkFuel, if_pos hle]
      simp only [hv, ok_bind,
        tvlWalkFuel_stop variant true none rows offset endT f
          (current + offset) v (by omega),
        ok_map]

/-- C3: cumulative-variant aggregation — a bucket with rows takes the
absolute value field (`tvlEth`) of its LAST row; an empty bucket carries the
previous value forward unchanged; and over a window containing zero snapshot
rows the whole walk is the constant series equal to the pre-window seed
value (the latest snapshot strictly before the window, zero absent any). -/
theorem cumulativeCarryForward :
    (∀ (intervalData : List MetricHourlyRow) (previousTvl : ℚ)
        (r : MetricHourlyRow), intervalData.getLast? = some r →
        calculateTvlForHistoricalRecord intervalData "cumulative" previousTvl
          true none = Except.ok r.tvlEth) ∧
      (∀ previousTvl : ℚ,
        calculateTvlForHistoricalRecord [] "cumulative" previousTvl true
          none = Except.ok previousTvl) ∧
      (∀ (tableRows : List MetricHourlyRow) (startAt endAt : Nat)
        (frequency : String),
        (tableRows.filter fun r =>
          decide (resetTime startAt ≤ r.timestamp) &&
            decide (r.timestamp ≤ resetTime endAt)) = [] →
        ∃ pts, doGetHistoricalTvlBeacon tableRows startAt endAt frequency
            "cumulative" = Except.ok pts ∧
          ∀ p ∈ pts, p.2 = preWindowSeed tableRows (resetTime startAt)) := by
  refine ⟨?_, ?_, ?_⟩
  · intro intervalData previousTvl r h
    simp [calculateTvlForHistoricalRecord, h]
  · intro previousTvl; rfl
  · intro tableRows startAt endAt frequency hempty
    obtain ⟨pts, hw, hp⟩ := tvlWalkFuel_const (getOffsetInMs frequency)
      (resetTime endAt)
      ((resetTime endAt - resetTime startAt) / getOffsetInMs frequency + 1)
      (resetTime startAt) (preWindowSeed tableRows (resetTime startAt))
    refine ⟨pts, ?_, hp⟩
    unfold doGetHistoricalTvlBeacon
    rw [hempty, if_pos rfl, getInitialTvlCumulative_empty, ok_bind]
    exact hw

/-- Witness for C3 at a one-row table whose row lies strictly before the
window `[7200000, 10800000]`. -/
theorem cumulativeCarryForward_witness :
    calculateTvlForHistoricalRecord [mRow1] "cumulative" 7 true none =
        Except.ok mRow1.tvlEth ∧
      calculateTvlForHistoricalRecord [] "cumulative" 7 true none =
        Except.ok 7 ∧
      ∃ pts, doGetHistoricalTvlBeacon [mRow1] 7200000 10800000 "1h"
          "cumulative" = Except.ok pts ∧
        ∀ p ∈ pts, p.2 = preWindowSeed [mRow1] (resetTime 7200000) :=
  ⟨cumulativeCarryForward.1 [mRow1] 7 mRow1 rfl,
    cumulativeCarryForward.2.1 7,
    cumulativeCarryForward.2.2 [mRow1] 7200000 10800000 "1h" (by decide)⟩

/-- C4, counterexample: for the hour-aligned window `[0, 90000000]` (25 hours)
at frequency `1d` the walk emits 2 points — `floor(25h/24h) + 1` — while the
claimed `ceil((endAt-startAt)/offset) + 1` would be 3. -/
theorem bucketCount_ceil_cex :
    doGetHistoricalTvlBeacon [] 0 90000000 "1d" "discrete" =
        Except.ok [(0, 0), (86400000, 0)] ∧
      ¬ ((2 : Nat) = (90000000 - 0 + 86400000 - 1) / 86400000 + 1) :=
  ⟨by decide, by decide⟩

/-- C4 (amended): for every hour-truncated window with
`resetTime startAt ≤ resetTime endAt` and every frequency, the bucket walk
emits exactly `floor((endAt - startAt) / offset) + 1` points (one per bucket
start that is `≤ endAt`); this equals `ceil(...) + 1` only when the window
length is an exact multiple of the offset. -/
theorem bucketCount (tableRows : List MetricHourlyRow) (startAt endAt : Nat)
    (frequency variant : String) (h : resetTime startAt ≤ resetTime endAt) :
    ∃ pts, doGetHistoricalTvlBeacon tableRows startAt endAt frequency
        variant = Except.ok pts ∧
      pts.length =
        (resetTime endAt - resetTime startAt) / getOffsetInMs frequency + 1 := by
  have hoff := getOffsetInMs_pos frequency
  obtain ⟨s, hs⟩ : ∃ s, (if variant = "cumulative" then
      getInitialTvlCumulative (resetTime startAt)
        (tableRows.filter fun r =>
          decide (resetTime startAt ≤ r.timestamp) &&
            decide (r.timestamp ≤ resetTime endAt))
        true tableRows none
    else Except.ok 0) = Except.ok s := by
    by_cases hv : variant = "cumulative"
    · obtain ⟨q, hq⟩ := getInitialTvlCumulative_eth_ok (resetTime startAt)
        (tableRows.filter fun r =>
          decide (resetTime startAt ≤ r.timestamp) &&
            decide (r.timestamp ≤ resetTime endAt)) tableRows
      exact ⟨q, by rw [if_pos hv, hq]⟩
    · exact ⟨0, by rw [if_neg hv]⟩
  obtain ⟨pts, hw, hlen⟩ := tvlWalkFuel_length variant
    (tableRows.filter fun r =>
      decide (resetTime startAt ≤ r.timestamp) &&
        decide (r.timestamp ≤ resetTime endAt))
    (getOffsetInMs frequency) (resetTime endAt) hoff
    ((resetTime endAt - resetTime startAt) / getOffsetInMs frequency + 1)
    (resetTime startAt) s (le_refl _) h
  refine ⟨pts, ?_, hlen⟩
  unfold doGetHistoricalTvlBeacon
  rw [hs, ok_bind]
  exact hw

/-- Witness for C4 (amended) at the window `[0, 90000000]`, frequency `1d`. -/
theorem bucketCount_witness :
    ∃ pts, doGetHistoricalTvlBeacon [] 0 90000000 "1d" "discrete" =
        Except.ok pts ∧
      pts.length = (resetTime 90000000 - resetTime 0) / getOffsetInMs "1d" + 1 :=
  bucketCount [] 0 90000000 "1d" "discrete" (by decide)

/-- Helper for C7: full behaviour of the `doGetHistoricalTvlTotal`
combination step at any starting index. -/
theorem combineFrom_spec :
    ∀ (beaconTvl restakingTvl : List HistoricalTvlRecord) (index : Nat),
      ((beaconTvl.length ≤ restakingTvl.length ∧
          ∀ p ∈ beaconTvl.zip restakingTvl, p.1.timestamp = p.2.timestamp) →
        combineHistoricalTvlFrom index beaconTvl restakingTvl =
          Except.ok ((beaconTvl.zip restakingTvl).map fun p =>
            { timestamp := p.1.timestamp, tvlEth := p.1.tvlEth + p.2.tvlEth })) ∧
      ((restakingTvl.length < beaconTvl.length ∨
          ∃ p ∈ beaconTvl.zip restakingTvl, p.1.timestamp ≠ p.2.timestamp) →
        ∃ e, combineHistoricalTvlFrom index beaconTvl restakingTvl =
          Except.error e) := by
  intro beaconTvl
  induction beaconTvl with
  | nil =>
    intro restakingTvl index
    constructor
    · intro _; rfl
    · rintro (h | ⟨p, hp, _⟩)
      · simp at h
      · simp at hp
  | cons b bs ih =>
    intro restakingTvl index
    cases restakingTvl with
    | nil =>
      constructor
      · rintro ⟨h1, _⟩; simp at h1
      · intro _; exact ⟨_, rfl⟩
    | cons r rs =>
      constructor
      · rintro ⟨h1, h2⟩
        have hts : b.timestamp = r.timestamp := h2 (b, r) (by simp)
        rw [combineHistoricalTvlFrom, if_neg (by simp [hts])]
        rw [(ih rs (index + 1)).1
          ⟨by simpa using h1, fun p hp => h2 p (by simp [hp])⟩]
        rw [ok_map]
        simp [hts]
      · rintro (h | ⟨p, hp, hne⟩)
        · by_cases hts : b.timestamp = r.timestamp
          · rw [combineHistoricalTvlFrom, if_neg (by simp [hts])]
            obtain ⟨e, he⟩ := (ih rs (index + 1)).2 (Or.inl (by simpa using h))
            exact ⟨e, by rw [he, error_map]⟩
          · exact ⟨_, by rw [combineHistoricalTvlFrom, if_pos hts]⟩
        · simp only [List.zip_cons_cons, List.mem_cons] at hp
          rcases hp with hp | hp
          · rw [hp] at hne
            exact ⟨_, by rw [combineHistoricalTvlFrom, if_pos hne]⟩
          · by_cases hts : b.timestamp = r.timestamp
            · rw [combineHistoricalTvlFrom, if_neg (by simp [hts])]
              obtain ⟨e, he⟩ := (ih rs (index + 1)).2 (Or.inr ⟨p, hp, hne⟩)
              exact ⟨e, by rw [he, error_map]⟩
            · exact ⟨_, by rw [combineHistoricalTvlFrom, if_pos hts]⟩

/-- C7, counterexample: when the restaking series is LONGER than the beacon
series (mismatched lengths, matching prefix timestamps), the composition
does not raise — it silently returns the sums over the beacon series's
indices. -/
theorem seriesComposition_cex :
    doGetHistoricalTvlTotalCombine
        [{ timestamp := "t0", tvlEth := 1 }]
        [{ timestamp := "t0", tvlEth := 2 }, { timestamp := "t1", tvlEth := 3 }] =
        Except.ok [{ timestamp := "t0", tvlEth := 3 }] ∧
      ([{ timestamp := "t0", tvlEth := 1 }] : List HistoricalTvlRecord).length ≠
        ([{ timestamp := "t0", tvlEth := 2 },
          { timestamp := "t1", tvlEth := 3 }] : List HistoricalTvlRecord).length :=
  ⟨by norm_num [doGetHistoricalTvlTotalCombine, combineHistoricalTvlFrom,
    ok_map], by decide⟩

/-- C7 (amended): the composition raises an error when the restaking series
is SHORTER than the beacon series or some corresponding pair among the
beacon series's indices has mismatched timestamps; otherwise (restaking at
least as long, all corresponding timestamps equal) it returns the pointwise
sums with the shared timestamps — extra trailing restaking entries are
silently ignored rather than detected. -/
theorem seriesComposition (beaconTvl restakingTvl : List HistoricalTvlRecord) :
    ((beaconTvl.length ≤ restakingTvl.length ∧
        ∀ p ∈ beaconTvl.zip restakingTvl, p.1.timestamp = p.2.timestamp) →
      doGetHistoricalTvlTotalCombine beaconTvl restakingTvl =
        Except.ok ((beaconTvl.zip restakingTvl).map fun p =>
          { timestamp := p.1.timestamp, tvlEth := p.1.tvlEth + p.2.tvlEth })) ∧
      ((restakingTvl.length < beaconTvl.length ∨
        ∃ p ∈ beaconTvl.zip restakingTvl, p.1.timestamp ≠ p.2.timestamp) →
      ∃ e, doGetHistoricalTvlTotalCombine beaconTvl restakingTvl =
        Except.error e) :=
  combineFrom_spec beaconTvl restakingTvl 0

/-- Witness for C7 (amended): an aligned pair sums pointwise; a shorter
restaking series raises. -/
theorem seriesComposition_witness :
    doGetHistoricalTvlTotalCombine
        [{ timestamp := "t0", tvlEth := 1 }] [{ timestamp := "t0", tvlEth := 2 }] =
        Except.ok [{ timestamp := "t0", tvlEth := 3 }] ∧
      ∃ e, doGetHistoricalTvlTotalCombine
        [{ timestamp := "t0", tvlEth := 1 }, { timestamp := "t1", tvlEth := 1 }]
        [{ timestamp := "t0", tvlEth := 2 }] = Except.error e := by
  constructor
  · rw [(seriesComposition [{ timestamp := "t0", tvlEth := 1 }]
      [{ timestamp := "t0", tvlEth := 2 }]).1 ⟨by decide, by decide⟩]
    norm_num
  · exact (seriesComposition
      [{ timestamp := "t0", tvlEth := 1 }, { timestamp := "t1", tvlEth := 1 }]
      [{ timestamp := "t0", tvlEth := 2 }]).2 (Or.inl (by decide))

/-- C8: the point-in-time change computation returns
`value = current - offset` and `percent = (current - offset) / offset`,
except that `percent = 0` whenever the offset value is `0`; in particular
`current = 110, offset = 100` yields `{value: 10, percent: 0.1}` and
`offset = 0` yields `percent = 0` with no division-by-zero propagation. -/
theorem tvlChanges_spec :
    (∀ currentTvl tvl24hOffset tvl7dOffset : ℚ,
        (calculateTvlChanges currentTvl tvl24hOffset tvl7dOffset).tvl =
            currentTvl ∧
          (calculateTvlChanges currentTvl tvl24hOffset
              tvl7dOffset).change24h.value = currentTvl - tvl24hOffset ∧
          (calculateTvlChanges currentTvl tvl24hOffset
              tvl7dOffset).change24h.percent =
            (if tvl24hOffset = 0 then 0
              else (currentTvl - tvl24hOffset) / tvl24hOffset) ∧
          (calculateTvlChanges currentTvl tvl24hOffset
              tvl7dOffset).change7d.value = currentTvl - tvl7dOffset ∧
          (calculateTvlChanges currentTvl tvl24hOffset
              tvl7dOffset).change7d.percent =
            (if tvl7dOffset = 0 then 0
              else (currentTvl - tvl7dOffset) / tvl7dOffset)) ∧
      (calculateTvlChanges 110 100 100).change24h =
        { value := 10, percent := 1 / 10 } ∧
      (calculateTvlChanges 110 0 0).change24h.percent = 0 :=
  ⟨fun _ _ _ => ⟨rfl, rfl, rfl, rfl, rfl⟩,
    by norm_num [calculateTvlChanges],
    by norm_num [calculateTvlChanges]⟩

/-- C10: `fetchLastSyncBlock` returns the configured genesis block both when
no settings row exists for the stream key AND when a row exists whose stored
value is `0` (the JS truthiness test makes a persisted cursor of block 0
indistinguishable on read from an absent cursor); a nonzero stored value is
returned as-is. -/
theorem fetchLastSyncBlock_falsy (network : String)
    (settings : String → Option Nat) (key : String) :
    (settings key = none →
        fetchLastSyncBlock network settings key = baseBlock network) ∧
      (settings key = some 0 →
        fetchLastSyncBlock network settings key = baseBlock network) ∧
      ∀ v, settings key = some v → v ≠ 0 →
        fetchLastSyncBlock network settings key = v := by
  refine ⟨fun h => ?_, fun h => ?_, fun v h hv => ?_⟩
  · simp [fetchLastSyncBlock, h]
  · simp [fetchLastSyncBlock, h]
  · simp [fetchLastSyncBlock, h, hv]

/-! ## Bulk Writer and sync-cursor lemmas -/

theorem applyDbOp_settings (db : Db) (op : DbOp)
    (h : isSettingsOp op = false) :
    (applyDbOp db op).settings = db.settings := by
  cases op <;> first
    | rfl
    | exact absurd h (by simp [isSettingsOp])

theorem foldl_applyDbOp_settings (ops : List DbOp)
    (h : ∀ op ∈ ops, isSettingsOp op = false) :
    ∀ db : Db, (ops.foldl applyDbOp db).settings = db.settings := by
  induction ops with
  | nil => intro db; rfl
  | cons op rest ih =>
    intro db
    rw [List.foldl_cons,
      ih (fun o ho => h o (List.mem_cons_of_mem _ ho)),
      applyDbOp_settings db op (h op (List.mem_cons_self _ _))]

theorem chunkListFuel_mem {α : Type} :
    ∀ (fuel : Nat) (l : List α) (size : Nat) (c : List α),
      c ∈ chunkListFuel fuel l size → ∀ x ∈ c, x ∈ l := by
  intro fuel
  induction fuel with
  | zero => intro l size c hc; simp [chunkListFuel] at hc
  | succ f ih =>
    intro l size c hc x hx
    cases l with
    | nil => simp [chunkListFuel] at hc
    | cons a as =>
      rw [chunkListFuel] at hc
      · rcases List.mem_cons.mp hc with h | h
        · exact List.take_subset size (a :: as) (h ▸ hx)
        · exact List.drop_subset size (a :: as)
            (ih ((a :: as).drop size) size c h x hx)
      · simp

theorem runChunks_settings (fails : Nat → Bool) :
    ∀ (chunks : List (List DbOp)) (i : Nat) (db : Db),
      (∀ c ∈ chunks, ∀ op ∈ c, isSettingsOp op = false) →
      ∀ d, (runChunks fails chunks i db = Except.ok d ∨
          runChunks fails chunks i db = Except.error d) →
        d.settings = db.settings := by
  intro chunks
  induction chunks with
  | nil =>
    intro i db _ d hd
    rcases hd with h | h
    · simp [runChunks] at h; rw [← h]
    · simp [runChunks] at h
  | cons c rest ih =>
    intro i db hops d hd
    rw [runChunks] at hd
    by_cases hf : fails i
    · rw [if_pos hf] at hd
      rcases hd with h | h
      · simp at h
      · simp at h; rw [← h]
    · rw [if_neg hf] at hd
      have := ih (i + 1) (c.foldl applyDbOp db)
        (fun c' hc' => hops c' (List.mem_cons_of_mem _ hc')) d hd
      rw [this,
        foldl_applyDbOp_settings c (hops c (List.mem_cons_self _ _)) db]

/-- A bulk write touching no settings operation leaves the settings surface
unchanged no matter where (or whether) it fails. -/
theorem bulkUpdate_settings (fails : Nat → Bool) (ops : List DbOp) (db : Db)
    (h : ∀ op ∈ ops, isSettingsOp op = false) :
    ∀ d, (bulkUpdateDbTransactions fails ops db = Except.ok d ∨
        bulkUpdateDbTransactions fails ops db = Except.error d) →
      d.settings = db.settings := by
  intro d hd
  exact runChunks_settings fails (chunkArray ops 1000) 0 db
    (fun c hc op hop => h op (chunkListFuel_mem ops.length ops 1000 c hc op hop))
    d hd

/-- A nonempty transaction list has a first chunk; if its transaction fails,
the whole bulk write throws with the store untouched. -/
theorem bulkUpdate_firstChunkFail (fails : Nat → Bool) (ops : List DbOp)
    (db : Db) (hne : ops ≠ []) (h0 : fails 0 = true) :
    bulkUpdateDbTransactions fails ops db = Except.error db := by
  obtain ⟨x, xs, rfl⟩ := List.exists_cons_of_ne_nil hne
  show runChunks fails (chunkListFuel (xs.length + 1) (x :: xs) 1000) 0 db =
    Except.error db
  rw [chunkListFuel, runChunks, if_pos h0]
  simp

theorem processOperatorSharesBatch_db (blockData : Nat → Option Nat)
    (acc : OperatorSharesAcc) (batch : OperatorSharesBatch)
    (h : batch.rpcFails = false → batch.chunkFails 0 = true) :
    (processOperatorSharesBatch blockData acc batch).db = acc.db := by
  by_cases hr : batch.rpcFails
  · simp [processOperatorSharesBatch, hr]
  · have hc := h (by simpa using hr)
    have hb := bulkUpdate_firstChunkFail batch.chunkFails
      (acc.dbTransactions ++
        [DbOp.eventLogsIncCreateMany (acc.logsIncreased ++
            batch.logs.map (decodeOperatorSharesLog blockData)),
          DbOp.eventLogsDecCreateMany (acc.logsDecreased ++
            batch.logs.map (decodeOperatorSharesLog blockData)),
          DbOp.settingsUpsert opSharesBlockSyncKey batch.toBlock])
      acc.db (by simp) hc
    simp [processOperatorSharesBatch, hr, hb]

theorem seedLogs_foldl_db (blockData : Nat → Option Nat) :
    ∀ (batches : List OperatorSharesBatch) (acc : OperatorSharesAcc),
      (∀ b ∈ batches, b.rpcFails = false → b.chunkFails 0 = true) →
      (batches.foldl (processOperatorSharesBatch blockData) acc).db =
        acc.db := by
  intro batches
  induction batches with
  | nil => intro acc _; rfl
  | cons b rest ih =>
    intro acc h
    rw [List.foldl_cons,
      ih (processOperatorSharesBatch blockData acc b)
        (fun b' hb' => h b' (List.mem_cons_of_mem _ hb')),
      processOperatorSharesBatch_db blockData acc b
        (h b (List.mem_cons_self _ _))]

/-- The transaction list `seedPods` builds contains no settings operation
(the cursor is written separately, after the bulk write returns). -/
theorem seedPods_ops_noSettings (podList : List Pod) (c : Prop)
    [Decidable c] :
    ∀ op ∈ (if c then
        [DbOp.validatorRestakeDeleteAll, DbOp.podDeleteAll,
          DbOp.podCreateMany podList]
      else podList.map DbOp.podUpsert), isSettingsOp op = false := by
  intro op hop
  by_cases hc : c
  · rw [if_pos hc] at hop
    simp at hop
    rcases hop with h | h | h <;> rw [h] <;> rfl
  · rw [if_neg hc] at hop
    simp at hop
    obtain ⟨p, _, hp⟩ := hop
    rw [← hp]
    rfl

/-- An `Except.map` image that is an error comes from that same error. -/
theorem map_eq_error {ε α β : Type} (x : Except ε α) (f : α → β) (e : ε)
    (h : x.map f = Except.error e) : x = Except.error e := by
  cases x with
  | error a => simpa [error_map] using h
  | ok a => simp [ok_map] at h

/-- C2 (amended): in `seedPods` a write failure aborts the run with every
settings key — in particular the stream's sync cursor — unchanged (the
transaction list contains no settings operation; the cursor write happens
only after the bulk write returns).  In `seedLogsOperatorShares` the cursor
upsert rides inside the batch's own transaction list, so a run in which
every attempted batch write fails at its first chunk ends with the cursor
(and all settings) at its prior value.  However (see the counterexample),
because a failed batch is swallowed and the run continues, a later
successful batch advances the cursor even though an earlier batch's write
failed — the claim's "cursor after the run equals its value before the run"
holds only when no later batch succeeds. -/
theorem syncCursor_noAdvanceOnFailure :
    (∀ (network : String) (fails : Nat → Bool) (blockTimestamps : Nat → Nat)
        (currentHead : Nat) (logs : List PodRawLog)
        (toBlock fromBlock : Option Nat) (db d : Db),
        seedPods network fails blockTimestamps currentHead logs toBlock
          fromBlock db = Except.error d →
        ∀ k, d.settings k = db.settings k) ∧
      (∀ (blockData : Nat → Option Nat) (batches : List OperatorSharesBatch)
        (db : Db),
        (∀ b ∈ batches, b.rpcFails = false → b.chunkFails 0 = true) →
        ∀ k, (seedLogsOperatorShares blockData batches db).db.settings k =
          db.settings k) := by
  constructor
  · intro network fails blockTimestamps currentHead logs toBlock fromBlock db d h
    simp only [seedPods] at h
    have hx := map_eq_error _ _ _ h
    intro k
    exact congrFun
      (bulkUpdate_settings fails _ db
        (seedPods_ops_noSettings (logs.map (decodePodLog blockTimestamps)) _)
        d (Or.inr hx)) k
  · intro blockData batches db h k
    show (batches.foldl (processOperatorSharesBatch blockData)
      { logsIncreased := []
        logsDecreased := []
        dbTransactions := []
        db := db }).db.settings k = db.settings k
    rw [seedLogs_foldl_db blockData batches _ h]

/-- C2, counterexample: a two-batch `seedLogsOperatorShares` run starting
from cursor 100.  Batch 1 (toBlock 110) fails its write — the bulk write
throws with the store untouched — but the failure is swallowed; batch 2
(toBlock 120) succeeds, and its transaction list still contains batch 1's
queued operations, so the cursor ends at 120: the sync cursor after a run
containing a failed batch write does NOT equal its value before the run. -/
theorem syncCursor_noAdvanceOnFailure_cex :
    cursorDb100.settings opSharesBlockSyncKey = some 100 ∧
      bulkUpdateDbTransactions (fun _ => true)
        [DbOp.eventLogsIncCreateMany [], DbOp.eventLogsDecCreateMany [],
          DbOp.settingsUpsert opSharesBlockSyncKey 110] cursorDb100 =
        Except.error cursorDb100 ∧
      (seedLogsOperatorShares (fun _ => none)
          [{ toBlock := 110, rpcFails := false, logs := [],
              chunkFails := fun _ => true },
            { toBlock := 120, rpcFails := false, logs := [],
              chunkFails := fun _ => false }] cursorDb100).db.settings
          opSharesBlockSyncKey = some 120 ∧
      (seedLogsOperatorShares (fun _ => none)
          [{ toBlock := 110, rpcFails := false, logs := [],
              chunkFails := fun _ => true },
            { toBlock := 120, rpcFails := false, logs := [],
              chunkFails := fun _ => false }] cursorDb100).db.settings
          opSharesBlockSyncKey ≠ cursorDb100.settings opSharesBlockSyncKey :=
  ⟨rfl, rfl, rfl, by decide⟩

/-- Witness for C2 (amended): a failing `seedPods` write and a failing
single-batch `seedLogsOperatorShares` run, both from cursor 100. -/
theorem syncCursor_noAdvanceOnFailure_witness :
    (∀ k, cursorDb100.settings k = cursorDb100.settings k) ∧
      ∀ k, (seedLogsOperatorShares (fun _ => none)
          [{ toBlock := 110, rpcFails := false, logs := [],
              chunkFails := fun _ => true }] cursorDb100).db.settings k =
        cursorDb100.settings k :=
  ⟨syncCursor_noAdvanceOnFailure.1 "mainnet" (fun _ => true) (fun _ => 0) 100
      [podLog1] (some 100) (some 5) cursorDb100 cursorDb100 rfl,
    syncCursor_noAdvanceOnFailure.2 (fun _ => none)
      [{ toBlock := 110, rpcFails := false, logs := [],
          chunkFails := fun _ => true }] cursorDb100
      (by
        intro b hb
        simp at hb
        subst hb
        intro
        rfl)⟩

/-- C5 (amended): `seedPods` propagates a write failure to its caller (any
failing first chunk makes the whole run return the error).  In
`seedLogsOperatorShares`, however, every failure inside a batch — chain
read, decode or write — is swallowed by the empty `catch (error) {}`: the
run completes normally; a single-batch run whose write fails returns with
the store exactly as it started and no error surfaced anywhere. -/
theorem errorSignaling :
    (∀ (network : String) (fails : Nat → Bool) (blockTimestamps : Nat → Nat)
        (currentHead : Nat) (logs : List PodRawLog)
        (toBlock fromBlock : Option Nat) (db : Db),
        logs ≠ [] → fails 0 = true →
        ∃ d, seedPods network fails blockTimestamps currentHead logs toBlock
          fromBlock db = Except.error d) ∧
      (∀ (blockData : Nat → Option Nat) (db : Db) (b : OperatorSharesBatch),
        b.rpcFails = false → b.chunkFails 0 = true →
        (seedLogsOperatorShares blockData [b] db).db = db) := by
  constructor
  · intro network fails blockTimestamps currentHead logs toBlock fromBlock db
      hlogs h0
    refine ⟨db, ?_⟩
    simp only [seedPods]
    rw [bulkUpdate_firstChunkFail fails _ db
      (by
        split
        · simp
        · simp [hlogs]) h0, error_map]
  · intro blockData db b hr hc
    show (processOperatorSharesBatch blockData
      { logsIncreased := []
        logsDecreased := []
        dbTransactions := []
        db := db } b).db = db
    rw [processOperatorSharesBatch_db blockData _ b (fun _ => hc)]

/-- C5, counterexample: a one-log batch whose write step demonstrably fails
(the bulk write over its three queued operations throws), yet
`seedLogsOperatorShares` completes normally and its final store is
indistinguishable from a run in which nothing was attempted — the failure is
discarded, not propagated or signaled. -/
theorem errorSignaling_cex :
    bulkUpdateDbTransactions (fun _ => true)
        [DbOp.eventLogsIncCreateMany
            [decodeOperatorSharesLog (fun _ => none) opShareLog1],
          DbOp.eventLogsDecCreateMany
            [decodeOperatorSharesLog (fun _ => none) opShareLog1],
          DbOp.settingsUpsert opSharesBlockSyncKey 110] emptyDb =
        Except.error emptyDb ∧
      (seedLogsOperatorShares (fun _ => none)
          [{ toBlock := 110, rpcFails := false, logs := [opShareLog1],
              chunkFails := fun _ => true }] emptyDb).db = emptyDb :=
  ⟨rfl, rfl⟩

/-- Witness for C5 (amended). -/
theorem errorSignaling_witness :
    (∃ d, seedPods "mainnet" (fun _ => true) (fun _ => 0) 100 [podLog1]
        (some 100) (some 5) emptyDb = Except.error d) ∧
      (seedLogsOperatorShares (fun _ => none)
          [{ toBlock := 110, rpcFails := false, logs := [],
              chunkFails := fun _ => true }] emptyDb).db = emptyDb :=
  ⟨errorSignaling.1 "mainnet" (fun _ => true) (fun _ => 0) 100 [podLog1]
      (some 100) (some 5) emptyDb (by simp) rfl,
    errorSignaling.2 (fun _ => none) emptyDb
      { toBlock := 110, rpcFails := false, logs := [],
        chunkFails := fun _ => true }
      rfl rfl⟩

/-- C6 (code bug): a single `OperatorSharesIncreased` log ingested through
`seedLogsOperatorShares` produces TWO records — the identical row is
appended to BOTH the `OperatorSharesIncreased` and the
`OperatorSharesDecreased` destination lists (the loop body never inspects
which event a log decoded from) — so the total record count across the
destination lists is 2, not the input log count 1. -/
theorem eventDecoder_bothLists :
    (seedLogsOperatorShares (fun _ => none)
        [{ toBlock := 110, rpcFails := false, logs := [opShareLog1],
            chunkFails := fun _ => false }]
        emptyDb).db.eventLogsOperatorSharesIncreased =
        [decodeOperatorSharesLog (fun _ => none) opShareLog1] ∧
      (seedLogsOperatorShares (fun _ => none)
        [{ toBlock := 110, rpcFails := false, logs := [opShareLog1],
            chunkFails := fun _ => false }]
        emptyDb).db.eventLogsOperatorSharesDecreased =
        [decodeOperatorSharesLog (fun _ => none) opShareLog1] ∧
      (seedLogsOperatorShares (fun _ => none)
        [{ toBlock := 110, rpcFails := false, logs := [opShareLog1],
            chunkFails := fun _ => false }]
        emptyDb).db.eventLogsOperatorSharesIncreased.length +
        (seedLogsOperatorShares (fun _ => none)
          [{ toBlock := 110, rpcFails := false, logs := [opShareLog1],
              chunkFails := fun _ => false }]
          emptyDb).db.eventLogsOperatorSharesDecreased.length ≠
        [opShareLog1].length :=
  ⟨rfl, rfl, by decide⟩

/-- Witness for C10: an absent row and a stored `0` both read back as the
mainnet genesis block; a stored `7` reads back as `7`. -/
theorem fetchLastSyncBlock_falsy_witness :
    fetchLastSyncBlock "mainnet" (fun _ => none) "k" = baseBlock "mainnet" ∧
      fetchLastSyncBlock "mainnet" (fun _ => some 0) "k" =
        baseBlock "mainnet" ∧
      fetchLastSyncBlock "mainnet" (fun _ => some 7) "k" = 7 :=
  ⟨(fetchLastSyncBlock_falsy "mainnet" (fun _ => none) "k").1 rfl,
    (fetchLastSyncBlock_falsy "mainnet" (fun _ => some 0) "k").2.1 rfl,
    (fetchLastSyncBlock_falsy "mainnet" (fun _ => some 7) "k").2.2 7 rfl
      (by decide)⟩

end EigenExplorer
